import Mathlib

/-!
Verification development for the virtual-testset backend.

The C++ sources are shallowly embedded: byte strings become `List Nat`
(each entry a byte value), machine integers become `Nat`/`Int` with
explicit reduction modulo `2 ^ w` where the width matters, and fallible
code returns `Except`/`Option`.
-/

namespace VTS

/-! ## BER length encoding
From `src/backend/src/protocols/include/BER_Encoding.hpp`. -/

/-- BER length encoder, translated from `encodeBERLength`
(`BER_Encoding.hpp`, lines 11–29): short form (single byte) for
`length ≤ 127`, `0x81` + 1 byte for `length ≤ 255`, `0x82` + 2
big-endian bytes for `length ≤ 65535`, and a thrown
`std::runtime_error` (here `.error`) above that. -/
def encodeBERLength (length : Nat) : Except String (List Nat) :=
  if length ≤ 127 then
    .ok [length]
  else if length ≤ 255 then
    .ok [0x81, length]
  else if length ≤ 65535 then
    .ok [0x82, (length >>> 8) &&& 0xFF, length &&& 0xFF]
  else
    .error "BER length > 65535 not supported"

/-- BER length decoder, translated from the GOOSE sniffer's length
parse (`src/backend/src/sniffer/src/sniffer.cpp`, lines 72–91): a
leading `0x82` takes the next two bytes big-endian, a leading `0x81`
takes the next byte, any other leading byte is the length itself.
Returns the decoded length and the number of bytes consumed; `none`
models the truncated-field error paths. -/
def decodeBERLength : List Nat → Option (Nat × Nat)
  | [] => none
  | b :: rest =>
    if b = 0x82 then
      match rest with
      | hi :: lo :: _ => some ((hi <<< 8) ||| lo, 3)
      | _ => none
    else if b = 0x81 then
      match rest with
      | l :: _ => some (l, 2)
      | _ => none
    else
      some (b, 1)

theorem shiftRight8_and_255 (L : Nat) : (L >>> 8) &&& 0xFF = L / 256 % 256 := by
  rw [Nat.shiftRight_eq_div_pow]
  have h : (0xFF : Nat) = 2 ^ 8 - 1 := by norm_num
  rw [h, Nat.and_pow_two_sub_one_eq_mod]

theorem and_255_eq_mod (L : Nat) : L &&& 0xFF = L % 256 := by
  have h : (0xFF : Nat) = 2 ^ 8 - 1 := by norm_num
  rw [h, Nat.and_pow_two_sub_one_eq_mod]

theorem shiftLeft8_or (a b : Nat) (h : b < 256) : (a <<< 8) ||| b = a * 256 + b := by
  have h2 : b < 2 ^ 8 := by omega
  have := Nat.mul_add_lt_is_or h2 a
  calc (a <<< 8) ||| b = 2 ^ 8 * a ||| b := by rw [Nat.shiftLeft_eq]; ring_nf
    _ = 2 ^ 8 * a + b := this.symm
    _ = a * 256 + b := by ring

/-- C1. For every length `L ∈ [0, 65535]`, `encodeBERLength L` succeeds and
returns 1 byte (`[L]`) iff `L ≤ 127`, 2 bytes (`[0x81, L]`) iff
`128 ≤ L ≤ 255`, and 3 bytes (`[0x82, hi, lo]` big-endian) iff
`256 ≤ L ≤ 65535`; decoding the produced bytes yields `L` back; and for
every `L ≥ 65536` the encoding fails. -/
theorem encodeBERLength_correct (L : Nat) :
    (L ≤ 65535 →
      ∃ bs, encodeBERLength L = .ok bs ∧
        (bs.length = 1 ↔ L ≤ 127) ∧
        (bs.length = 2 ↔ 128 ≤ L ∧ L ≤ 255) ∧
        (bs.length = 3 ↔ 256 ≤ L) ∧
        (L ≤ 127 → bs = [L]) ∧
        (128 ≤ L → L ≤ 255 → bs = [0x81, L]) ∧
        (256 ≤ L → bs = [0x82, L / 256, L % 256]) ∧
        decodeBERLength bs = some (L, bs.length)) ∧
    (65536 ≤ L → ∃ msg, encodeBERLength L = .error msg) := by
  constructor
  · intro hL
    by_cases h1 : L ≤ 127
    · refine ⟨[L], by simp [encodeBERLength, h1], ?_, ?_, ?_, fun _ => rfl, ?_, ?_, ?_⟩
      · simp; omega
      · simp; omega
      · simp; omega
      · intro hc _; exact absurd hc (by omega)
      · intro hc; exact absurd hc (by omega)
      · simp only [decodeBERLength]
        have h82 : ¬ (L = 0x82) := by omega
        have h81 : ¬ (L = 0x81) := by omega
        simp [h82, h81]
    · by_cases h2 : L ≤ 255
      · refine ⟨[0x81, L], by simp [encodeBERLength, h1, h2], ?_, ?_, ?_, ?_,
          fun _ _ => rfl, ?_, ?_⟩
        · simp; omega
        · simp; omega
        · simp; omega
        · intro hc; exact absurd hc (by omega)
        · intro hc; exact absurd hc (by omega)
        · simp [decodeBERLength]
      · refine ⟨[0x82, (L >>> 8) &&& 0xFF, L &&& 0xFF],
          by simp [encodeBERLength, h1, h2, hL], ?_⟩
        rw [shiftRight8_and_255, and_255_eq_mod]
        have hdiv : L / 256 % 256 = L / 256 := by
          have : L / 256 < 256 := by omega
          omega
        rw [hdiv]
        refine ⟨?_, ?_, ?_, ?_, ?_, fun _ => rfl, ?_⟩
        · simp; omega
        · simp; omega
        · simp; omega
        · intro hc; exact absurd hc (by omega)
        · intro hc hc2; exact absurd hc2 (by omega)
        · simp only [decodeBERLength]
          norm_num
          rw [shiftLeft8_or _ _ (by omega)]
          omega
  · intro hL
    refine ⟨"BER length > 65535 not supported", ?_⟩
    have h1 : ¬ L ≤ 127 := by omega
    have h2 : ¬ L ≤ 255 := by omega
    have h3 : ¬ L ≤ 65535 := by omega
    simp [encodeBERLength, h1, h2, h3]

/-- Witness for C1 at the concrete length 300:
`encodeBERLength 300 = [0x82, 0x01, 0x2C]` and decoding gives 300 back. -/
theorem encodeBERLength_correct_witness :
    encodeBERLength 300 = .ok [0x82, 1, 44] ∧
      decodeBERLength [0x82, 1, 44] = some (300, 3) := by
  obtain ⟨h, -⟩ := encodeBERLength_correct 300
  obtain ⟨bs, henc, -, -, -, -, -, hshape, hdec⟩ := h (by norm_num)
  have hb := hshape (by norm_num)
  norm_num at hb
  subst hb
  exact ⟨henc, by simpa using hdec⟩

/-! ## MAC address parsing
From `src/backend/src/protocols/include/Ethernet.hpp`
(`Ethernet::macStrToBytes`). Strings are byte lists. -/

/-- C-locale `isspace` on a byte, as consulted by `std::stoi`/`strtol`
while skipping leading whitespace. -/
def isSpaceByte (c : Nat) : Bool :=
  c = 32 || c = 9 || c = 10 || c = 11 || c = 12 || c = 13

/-- Hexadecimal-digit test on a byte (`0`–`9`, `A`–`F`, `a`–`f`). -/
def isHexDigitByte (c : Nat) : Bool :=
  (48 ≤ c && c ≤ 57) || (65 ≤ c && c ≤ 70) || (97 ≤ c && c ≤ 102)

/-- Numeric value of a hexadecimal digit byte (0 for non-digits). -/
def hexVal (c : Nat) : Nat :=
  if 48 ≤ c && c ≤ 57 then c - 48
  else if 65 ≤ c && c ≤ 70 then c - 65 + 10
  else if 97 ≤ c && c ≤ 102 then c - 97 + 10
  else 0

/-- `std::stoi(s, nullptr, 16)` on a byte string, following the
`strtol` base-16 rules it is specified to use: skip C whitespace, an
optional sign, an optional `0x`/`0X` prefix (taken only when a hex
digit follows; a bare `0x` parses as the single digit `0`), then the
longest run of hex digits.  No digit at all throws
`std::invalid_argument`, a value outside `int` range throws
`std::out_of_range`; both become `none`. -/
def stoi16 (s : List Nat) : Option Int :=
  let s1 := s.dropWhile isSpaceByte
  let sign : Int := if s1.headD 0 = 45 then -1 else 1
  let s2 := if s1.headD 0 = 43 || s1.headD 0 = 45 then s1.tail else s1
  let s3 :=
    if 2 < s2.length && s2.getD 0 0 = 48 && (s2.getD 1 0 = 120 || s2.getD 1 0 = 88)
        && isHexDigitByte (s2.getD 2 0)
    then s2.drop 2 else s2
  let ds := s3.takeWhile isHexDigitByte
  if ds.isEmpty then none
  else
    let v : Int := sign * (ds.foldl (fun acc c => acc * 16 + hexVal c) 0 : Nat)
    if v < -2147483648 || 2147483647 < v then none else some v

/-- One pass of the parse loop of `Ethernet::macStrToBytes`
(`Ethernet.hpp`, lines 33–49).  The C++ loop runs
`i = 0, 3, …` while `i < mac.length() && byteIdx < 6`; with the length
pinned to 17 that is exactly six iterations, so the recursion is
driven by the number of remaining iterations (`remaining = 6 - byteIdx`).
Each iteration checks the separator `mac[i-1] == ':'` (for
`byteIdx > 0`), checks `i + 1 < mac.length()`, then stores the
`uint8_t` cast of `std::stoi(mac.substr(i, 2), nullptr, 16)`. -/
def macParseAux (mac : List Nat) : Nat → Nat → Except String (List Nat)
  | _, 0 => .ok []
  | byteIdx, remaining + 1 =>
    let i := 3 * byteIdx
    if byteIdx > 0 ∧ mac.getD (i - 1) 0 ≠ 58 then
      .error "Invalid MAC address: missing colon separator"
    else if i + 1 ≥ mac.length then
      .error "Invalid MAC address: truncated byte"
    else
      match stoi16 ((mac.drop i).take 2) with
      | none => .error "Invalid MAC address: non-hex digit"
      | some v =>
        (macParseAux mac (byteIdx + 1) remaining).map (fun bs => (v % 256).toNat :: bs)

/-- MAC string parser, translated from `Ethernet::macStrToBytes`
(`Ethernet.hpp`, lines 24–52): a thrown `std::invalid_argument`
becomes `.error`, the returned `std::array<uint8_t, 6>` becomes the
six-element byte list. -/
def macStrToBytes (mac : List Nat) : Except String (List Nat) :=
  if mac.length ≠ 17 then
    .error "Invalid MAC address format: expected XX:XX:XX:XX:XX:XX"
  else
    macParseAux mac 0 6

/-- The input shape claim C7 demands (stated from the claim, to exhibit
the counterexample): exactly 17 bytes, `:` at positions 2, 5, 8, 11 and
14, hexadecimal digits everywhere else. -/
def isClaimShapedMac (mac : List Nat) : Bool :=
  mac.length = 17 &&
    (List.range 17).all (fun i =>
      if i % 3 = 2 then mac.getD i 0 = 58 else isHexDigitByte (mac.getD i 0))

theorem isHexDigitByte_ranges {c : Nat} (h : isHexDigitByte c = true) :
    48 ≤ c ∧ c ≤ 57 ∨ 65 ≤ c ∧ c ≤ 70 ∨ 97 ≤ c ∧ c ≤ 102 := by
  simp [isHexDigitByte] at h
  tauto

theorem hexVal_le {c : Nat} (h : isHexDigitByte c = true) : hexVal c ≤ 15 := by
  have h' := isHexDigitByte_ranges h
  simp only [hexVal]
  split <;> rename_i h1
  · simp at h1; omega
  · split <;> rename_i h2
    · simp at h2; omega
    · split <;> rename_i h3
      · simp at h3; omega
      · omega

theorem stoi16_hex_pair (c d : Nat) (hc : isHexDigitByte c = true)
    (hd : isHexDigitByte d = true) :
    stoi16 [c, d] = some ((16 * hexVal c + hexVal d : Nat) : Int) := by
  have hc' := isHexDigitByte_ranges hc
  have hsp : isSpaceByte c = false := by simp [isSpaceByte]; omega
  have h45 : ¬ (c = 45) := by omega
  have h43 : ¬ (c = 43) := by omega
  have hvc := hexVal_le hc
  have hvd := hexVal_le hd
  have ht : List.takeWhile isHexDigitByte [c, d] = [c, d] := by
    simp [List.takeWhile, hc, hd]
  simp only [stoi16, List.dropWhile, hsp, List.headD, List.head?, List.tail,
    List.getD, List.length]
  norm_num [h45, h43]
  rw [ht]
  simp [List.foldl]
  refine ⟨hc, ⟨by omega, by omega⟩, by ring⟩

theorem uint8_cast_hex_pair (c d : Nat) (hc : isHexDigitByte c = true)
    (hd : isHexDigitByte d = true) :
    (((16 * hexVal c + hexVal d : Nat) : Int) % 256).toNat
      = 16 * hexVal c + hexVal d := by
  have hvc := hexVal_le hc
  have hvd := hexVal_le hd
  omega

theorem macParseAux_ok_colon (mac : List Nat) (byteIdx rem : Nat) (bs : List Nat)
    (h : macParseAux mac byteIdx (rem + 1) = .ok bs) (hb : byteIdx > 0) :
    mac.getD (3 * byteIdx - 1) 0 = 58 := by
  by_contra hne
  simp only [macParseAux] at h
  rw [if_pos ⟨hb, hne⟩] at h
  exact absurd h (by simp)

theorem macParseAux_ok_next (mac : List Nat) (byteIdx rem : Nat) (bs : List Nat)
    (h : macParseAux mac byteIdx (rem + 1) = .ok bs) :
    ∃ bs2, macParseAux mac (byteIdx + 1) rem = .ok bs2 := by
  simp only [macParseAux] at h
  split at h
  · exact absurd h (by simp)
  · split at h
    · exact absurd h (by simp)
    · split at h
      · exact absurd h (by simp)
      · rename_i v hv
        cases h2 : macParseAux mac (byteIdx + 1) rem with
        | ok bs2 => exact ⟨bs2, rfl⟩
        | error e => rw [h2] at h; exact absurd h (by simp [Except.map])

/-- C7 (amended). Well-formed MAC strings — 17 bytes, `:` at positions
2, 5, 8, 11, 14, hex digits elsewhere — parse to exactly the six bytes
formed from the hex nibbles; conversely every accepted string has
length 17 and `:` at the five separator positions.  (The claim's
further demand that *all* other inputs be rejected fails: the byte
groups go through `std::stoi`, which tolerates a non-hex second
character, whitespace or a sign — see the counterexample.) -/
theorem macStrToBytes_spec :
    (∀ a0 a1 b0 b1 c0 c1 d0 d1 e0 e1 f0 f1 : Nat,
      isHexDigitByte a0 = true → isHexDigitByte a1 = true →
      isHexDigitByte b0 = true → isHexDigitByte b1 = true →
      isHexDigitByte c0 = true → isHexDigitByte c1 = true →
      isHexDigitByte d0 = true → isHexDigitByte d1 = true →
      isHexDigitByte e0 = true → isHexDigitByte e1 = true →
      isHexDigitByte f0 = true → isHexDigitByte f1 = true →
      macStrToBytes [a0, a1, 58, b0, b1, 58, c0, c1, 58, d0, d1, 58, e0, e1, 58, f0, f1]
        = .ok [16 * hexVal a0 + hexVal a1, 16 * hexVal b0 + hexVal b1,
               16 * hexVal c0 + hexVal c1, 16 * hexVal d0 + hexVal d1,
               16 * hexVal e0 + hexVal e1, 16 * hexVal f0 + hexVal f1]) ∧
    (∀ mac bs, macStrToBytes mac = .ok bs →
      mac.length = 17 ∧ mac.getD 2 0 = 58 ∧ mac.getD 5 0 = 58 ∧
        mac.getD 8 0 = 58 ∧ mac.getD 11 0 = 58 ∧ mac.getD 14 0 = 58) := by
  constructor
  · intro a0 a1 b0 b1 c0 c1 d0 d1 e0 e1 f0 f1
    intro ha0 ha1 hb0 hb1 hc0 hc1 hd0 hd1 he0 he1 hf0 hf1
    simp only [macStrToBytes, List.length]
    norm_num
    simp only [macParseAux, List.getD, List.drop, List.take, List.length]
    norm_num
    rw [stoi16_hex_pair a0 a1 ha0 ha1, stoi16_hex_pair b0 b1 hb0 hb1,
      stoi16_hex_pair c0 c1 hc0 hc1, stoi16_hex_pair d0 d1 hd0 hd1,
      stoi16_hex_pair e0 e1 he0 he1, stoi16_hex_pair f0 f1 hf0 hf1]
    simp only [Except.map]
    rw [uint8_cast_hex_pair a0 a1 ha0 ha1, uint8_cast_hex_pair b0 b1 hb0 hb1,
      uint8_cast_hex_pair c0 c1 hc0 hc1, uint8_cast_hex_pair d0 d1 hd0 hd1,
      uint8_cast_hex_pair e0 e1 he0 he1, uint8_cast_hex_pair f0 f1 hf0 hf1]
  · intro mac bs h
    simp only [macStrToBytes] at h
    split at h
    · exact absurd h (by simp)
    · rename_i hlen
      have hlen' : mac.length = 17 := by omega
      obtain ⟨bs1, h1⟩ := macParseAux_ok_next mac 0 5 bs h
      obtain ⟨bs2, h2⟩ := macParseAux_ok_next mac 1 4 bs1 h1
      obtain ⟨bs3, h3⟩ := macParseAux_ok_next mac 2 3 bs2 h2
      obtain ⟨bs4, h4⟩ := macParseAux_ok_next mac 3 2 bs3 h3
      obtain ⟨bs5, h5⟩ := macParseAux_ok_next mac 4 1 bs4 h4
      have hc1 := macParseAux_ok_colon mac 1 4 bs1 h1 (by omega)
      have hc2 := macParseAux_ok_colon mac 2 3 bs2 h2 (by omega)
      have hc3 := macParseAux_ok_colon mac 3 2 bs3 h3 (by omega)
      have hc4 := macParseAux_ok_colon mac 4 1 bs4 h4 (by omega)
      have hc5 := macParseAux_ok_colon mac 5 0 bs5 h5 (by omega)
      exact ⟨hlen', hc1, hc2, hc3, hc4, hc5⟩

/-- Witness for C7 at the concrete MAC string `"01:0C:CD:04:00:01"`:
parsing yields the bytes `01 0C CD 04 00 01`. -/
theorem macStrToBytes_spec_witness :
    macStrToBytes [48, 49, 58, 48, 67, 58, 67, 68, 58, 48, 52, 58, 48, 48, 58, 48, 49]
      = .ok [1, 12, 205, 4, 0, 1] := by
  have h := macStrToBytes_spec.1 48 49 48 67 67 68 48 52 48 48 48 49
    (by decide) (by decide) (by decide) (by decide) (by decide) (by decide)
    (by decide) (by decide) (by decide) (by decide) (by decide) (by decide)
  norm_num [hexVal] at h
  exact h

/-- Counterexample to C7 as stated: the 17-character input
`"00:11:22:33:44:5:"` has `:` (not a hex nibble) at position 16, so the
claim demands rejection, yet `macStrToBytes` accepts it — `std::stoi`
parses the group `"5:"` as the single digit `5`. -/
theorem macStrToBytes_counterexample :
    isClaimShapedMac [48, 48, 58, 49, 49, 58, 50, 50, 58, 51, 51, 58, 52, 52, 58, 53, 58]
        = false ∧
      macStrToBytes [48, 48, 58, 49, 49, 58, 50, 50, 58, 51, 51, 58, 52, 52, 58, 53, 58]
        = .ok [0, 17, 34, 51, 68, 5] :=
  ⟨rfl, rfl⟩

/-! ## Trip rule evaluator
From `src/backend/src/sniffer/include/trip_rule_evaluator.hpp` and
`src/backend/src/sniffer/src/trip_rule_evaluator.cpp`. -/

/-- Rule operators (`RuleOp`, `trip_rule_evaluator.hpp`, lines 42–52). -/
inductive RuleOp where
  | EQUALS | NOT_EQUALS | GREATER_THAN | LESS_THAN
  | GREATER_EQUAL | LESS_EQUAL | AND | OR | NOT
deriving DecidableEq, Repr

/-- GOOSE data-point value (`GooseDataPoint`,
`trip_rule_evaluator.hpp`, lines 17–25).  The C++ `double` field is
carried as `ℚ`; none of the properties proved here depend on
floating-point rounding. -/
structure GooseDataPoint where
  path : String := ""
  boolValue : Bool := false
  intValue : Int := 0
  floatValue : ℚ := 0
  dataType : String := "bool"
deriving DecidableEq, Repr

/-- Rule AST (`RuleNode` / `ComparisonNode` / `BinaryOpNode` /
`UnaryOpNode`, `trip_rule_evaluator.hpp`, lines 57–92). -/
inductive RuleNode where
  | comparison (dataPath : String) (operation : RuleOp) (compareValue : String)
  | binaryOp (operation : RuleOp) (left right : RuleNode)
  | unaryOp (operation : RuleOp) (operand : RuleNode)
deriving DecidableEq, Repr

/-- Decimal-digit test on a byte. -/
def isDigitByte (c : Nat) : Bool :=
  48 ≤ c && c ≤ 57

/-- `std::stoi(s)` (base 10), following `strtol`: skip C whitespace,
optional sign, longest run of decimal digits; no digit throws
`std::invalid_argument` and a value outside `int` range throws
`std::out_of_range` (both `none`). -/
def stoi10 (s : String) : Option Int :=
  let cs := s.data.map Char.toNat
  let s1 := cs.dropWhile isSpaceByte
  let sign : Int := if s1.headD 0 = 45 then -1 else 1
  let s2 := if s1.headD 0 = 43 || s1.headD 0 = 45 then s1.tail else s1
  let ds := s2.takeWhile isDigitByte
  if ds.isEmpty then none
  else
    let v : Int := sign * (ds.foldl (fun acc c => acc * 10 + (c - 48)) 0 : Nat)
    if v < -2147483648 || 2147483647 < v then none else some v

/-- `std::stod(s)` on the decimal forms the rule DSL's value strings
take (`[ws][sign]digits[.digits][e[sign]digits]`), computed exactly
over `ℚ`; `strtod`'s hexadecimal floats, `inf`/`nan` words and range
overflow are not modelled (no claim depends on them), and as in
`strtod` a malformed exponent suffix is simply not consumed. -/
def stod (s : String) : Option ℚ :=
  let cs := s.data.map Char.toNat
  let s1 := cs.dropWhile isSpaceByte
  let sign : ℚ := if s1.headD 0 = 45 then -1 else 1
  let s2 := if s1.headD 0 = 43 || s1.headD 0 = 45 then s1.tail else s1
  let ip := s2.takeWhile isDigitByte
  let rest1 := s2.drop ip.length
  let fp := if rest1.headD 0 = 46 then rest1.tail.takeWhile isDigitByte else []
  let rest2 := if rest1.headD 0 = 46 then rest1.tail.drop fp.length else rest1
  if ip.isEmpty && fp.isEmpty then none
  else
    let mant : ℚ :=
      sign * ((((ip ++ fp).foldl (fun acc c => acc * 10 + (c - 48)) 0 : Nat) : ℚ)
        / (10 ^ fp.length : ℚ))
    let er := rest2.tail
    let esign : Int := if er.headD 0 = 45 then -1 else 1
    let er2 := if er.headD 0 = 43 || er.headD 0 = 45 then er.tail else er
    let eds := er2.takeWhile isDigitByte
    if (rest2.headD 0 = 101 || rest2.headD 0 = 69) && !eds.isEmpty then
      some (mant * (10 : ℚ) ^ (esign * (eds.foldl (fun acc c => acc * 10 + (c - 48)) 0 : Nat)))
    else
      some mant

/-- AST evaluation, translated from `ComparisonNode::evaluate`,
`BinaryOpNode::evaluate` and `UnaryOpNode::evaluate`
(`trip_rule_evaluator.cpp`, lines 12–100).  The data-point map is an
association list looked up by path; a C++ exception escaping
`std::stoi`/`std::stod` becomes `.error`.  Note that
`BinaryOpNode::evaluate` computes `leftVal` and `rightVal` *before*
combining them, so both operands are always evaluated. -/
def evalNode : RuleNode → List (String × GooseDataPoint) → Except String Bool
  | .comparison dataPath operation compareValue, dataPoints =>
    match dataPoints.lookup dataPath with
    | none => .ok false
    | some dp =>
      if dp.dataType = "bool" then
        let compareVal : Bool := compareValue = "true" || compareValue = "1"
        match operation with
        | .EQUALS => .ok (dp.boolValue = compareVal)
        | .NOT_EQUALS => .ok (dp.boolValue ≠ compareVal)
        | _ => .ok false
      else if dp.dataType = "int" then
        match stoi10 compareValue with
        | none => .error "stoi"
        | some compareVal =>
          match operation with
          | .EQUALS => .ok (dp.intValue = compareVal)
          | .NOT_EQUALS => .ok (dp.intValue ≠ compareVal)
          | .GREATER_THAN => .ok (dp.intValue > compareVal)
          | .LESS_THAN => .ok (dp.intValue < compareVal)
          | .GREATER_EQUAL => .ok (dp.intValue ≥ compareVal)
          | .LESS_EQUAL => .ok (dp.intValue ≤ compareVal)
          | _ => .ok false
      else if dp.dataType = "float" then
        match stod compareValue with
        | none => .error "stod"
        | some compareVal =>
          match operation with
          | .EQUALS => .ok (|dp.floatValue - compareVal| < 1 / 1000000)
          | .NOT_EQUALS => .ok (|dp.floatValue - compareVal| ≥ 1 / 1000000)
          | .GREATER_THAN => .ok (dp.floatValue > compareVal)
          | .LESS_THAN => .ok (dp.floatValue < compareVal)
          | .GREATER_EQUAL => .ok (dp.floatValue ≥ compareVal)
          | .LESS_EQUAL => .ok (dp.floatValue ≤ compareVal)
          | _ => .ok false
      else .ok false
  | .binaryOp operation left right, dataPoints => do
    let leftVal ← evalNode left dataPoints
    let rightVal ← evalNode right dataPoints
    match operation with
    | .AND => pure (leftVal && rightVal)
    | .OR => pure (leftVal || rightVal)
    | _ => pure false
  | .unaryOp operation operand, dataPoints => do
    let val ← evalNode operand dataPoints
    match operation with
    | .NOT => pure (!val)
    | _ => pure false

/-- One trip rule (`TripRule`, `trip_rule_evaluator.hpp`, lines
97–104); `ast` is an `Option` mirroring the C++ null-pointer check in
`evaluate()`. -/
structure TripRule where
  name : String := ""
  expression : String := ""
  ast : Option RuleNode := none
  enabled : Bool := true
deriving DecidableEq, Repr

/-- Byte-wise lexicographic "less than" on byte lists, the order of
`std::char_traits<char>::compare` underlying `std::string::operator<`. -/
def byteLt : List Nat → List Nat → Bool
  | [], [] => false
  | [], _ :: _ => true
  | _ :: _, [] => false
  | a :: as, b :: bs =>
    if a < b then true
    else if b < a then false
    else byteLt as bs

/-- `std::string` ordering on rule names.  `std::map` compares the
UTF-8 bytes; on code points this coincides with byte order, since
UTF-8 is order-preserving. -/
def strLt (a b : String) : Bool :=
  byteLt (a.data.map Char.toNat) (b.data.map Char.toNat)

/-- The registry `rules_` is a `std::map<std::string, TripRule>`:
iteration visits entries in strictly increasing (lexicographic) key
order.  It is modelled as an association list kept sorted by key;
`insertRule` is `rules_[name] = rule` (insert-or-assign at the ordered
position). -/
def insertRule {α : Type} (m : List (String × α)) (name : String) (rule : α) :
    List (String × α) :=
  match m with
  | [] => [(name, rule)]
  | (k, v) :: rest =>
    if strLt name k then (name, rule) :: (k, v) :: rest
    else if name = k then (name, rule) :: rest
    else (k, v) :: insertRule rest name rule

theorem byteLt_irrefl : ∀ l : List Nat, byteLt l l = false
  | [] => rfl
  | a :: as => by simp [byteLt, byteLt_irrefl as]

theorem byteLt_asymm : ∀ {l m : List Nat}, byteLt l m = true → byteLt m l = false := by
  intro l
  induction l with
  | nil =>
    intro m h
    cases m with
    | nil => simp [byteLt] at h
    | cons b bs => simp [byteLt]
  | cons a as ih =>
    intro m h
    cases m with
    | nil => simp [byteLt] at h
    | cons b bs =>
      simp only [byteLt] at h ⊢
      by_cases h1 : a < b
      · simp [h1, Nat.lt_asymm h1]
      · by_cases h2 : b < a
        · simp [h1, h2] at h
        · simp [h1, h2] at h ⊢
          exact ih h

theorem byteLt_trans : ∀ {a b c : List Nat},
    byteLt a b = true → byteLt b c = true → byteLt a c = true := by
  intro a
  induction a with
  | nil =>
    intro b c hab hbc
    cases b with
    | nil => simp [byteLt] at hab
    | cons y ys =>
      cases c with
      | nil => simp [byteLt] at hbc
      | cons z zs => simp [byteLt]
  | cons x xs ih =>
    intro b c hab hbc
    cases b with
    | nil => simp [byteLt] at hab
    | cons y ys =>
      cases c with
      | nil => simp [byteLt] at hbc
      | cons z zs =>
        simp only [byteLt] at hab hbc ⊢
        by_cases h1 : x < y
        · by_cases h2 : y < z
          · simp [lt_trans h1 h2]
          · by_cases h3 : z < y
            · simp [h2, h3] at hbc
            · have hyz : y = z := by omega
              subst hyz
              simp [h1]
        · by_cases h4 : y < x
          · simp [h1, h4] at hab
          · have hxy : x = y := by omega
            subst hxy
            by_cases h2 : x < z
            · simp [h2]
            · by_cases h3 : z < x
              · simp [h2, h3] at hbc
              · simp [h1, h2, h3] at hab hbc ⊢
                exact ih hab hbc

theorem byteLt_total_eq : ∀ {l m : List Nat},
    byteLt l m = false → byteLt m l = false → l = m := by
  intro l
  induction l with
  | nil =>
    intro m h1 _
    cases m with
    | nil => rfl
    | cons b bs => simp [byteLt] at h1
  | cons a as ih =>
    intro m h1 h2
    cases m with
    | nil => simp [byteLt] at h2
    | cons b bs =>
      simp only [byteLt] at h1 h2
      by_cases hab : a < b
      · simp [hab] at h1
      · by_cases hba : b < a
        · simp [hab, hba] at h2
        · have : a = b := by omega
          subst this
          simp [hab, hba] at h1 h2
          rw [ih h1 h2]

theorem charToNat_injective : Function.Injective Char.toNat := by
  intro a b h
  apply Char.eq_of_val_eq
  apply UInt32.ext
  exact h

theorem strLt_irrefl (a : String) : strLt a a = false :=
  byteLt_irrefl _

theorem strLt_asymm {a b : String} (h : strLt a b = true) : strLt b a = false :=
  byteLt_asymm h

theorem strLt_trans {a b c : String} (h1 : strLt a b = true)
    (h2 : strLt b c = true) : strLt a c = true :=
  byteLt_trans h1 h2

theorem strLt_eq_of_not {a b : String} (h1 : strLt a b = false)
    (h2 : strLt b a = false) : a = b := by
  have hm := byteLt_total_eq h1 h2
  have hd : a.data = b.data :=
    List.map_injective_iff.mpr charToNat_injective hm
  cases a
  cases b
  simp only [] at hd
  rw [hd]

theorem strLt_trichotomy (a b : String) :
    strLt a b = true ∨ a = b ∨ strLt b a = true := by
  cases h1 : strLt a b with
  | true => exact Or.inl rfl
  | false =>
    cases h2 : strLt b a with
    | true => exact Or.inr (Or.inr rfl)
    | false => exact Or.inr (Or.inl (strLt_eq_of_not h1 h2))

theorem strLt_ne {a b : String} (h : strLt a b = true) : a ≠ b := by
  intro heq
  subst heq
  rw [strLt_irrefl] at h
  exact Bool.false_ne_true h

/-- Evaluation result (`TripRuleResult`, `trip_rule_evaluator.hpp`,
lines 30–37).  The epoch-microseconds timestamp is wall-clock state
and is not modelled. -/
structure TripRuleResult where
  triggered : Bool := false
  ruleName : String := ""
  message : String := ""
deriving DecidableEq, Repr

/-- `TripRuleEvaluator::evaluate` (`trip_rule_evaluator.cpp`, lines
170–204): walk the rule map in its iteration order, skip disabled or
AST-less rules, return the first rule whose AST evaluates to `true`; a
C++ exception from an evaluation aborts with a non-triggered result
carrying the diagnostic; if nothing triggers, return a non-triggered
result. -/
def evaluateRules : List (String × TripRule) → List (String × GooseDataPoint) →
    TripRuleResult
  | [], _ => { triggered := false, message := "No trip rules triggered" }
  | (_, rule) :: rest, dataPoints =>
    if !rule.enabled || rule.ast.isNone then
      evaluateRules rest dataPoints
    else
      match rule.ast with
      | none => evaluateRules rest dataPoints
      | some ast =>
        match evalNode ast dataPoints with
        | .ok true =>
          { triggered := true, ruleName := rule.name,
            message := "Trip rule triggered: " ++ rule.expression }
        | .ok false => evaluateRules rest dataPoints
        | .error e =>
          { triggered := false,
            message := "Error evaluating rule \x27" ++ rule.name ++ "\x27: " ++ e }

/-- Does the (enabled) rule of this map entry evaluate to `true`?
Used to phrase which entry `evaluate()` reports. -/
def entryHolds (dataPoints : List (String × GooseDataPoint))
    (e : String × TripRule) : Bool :=
  e.2.enabled &&
    match e.2.ast with
    | some ast => match evalNode ast dataPoints with
      | .ok true => true
      | _ => false
    | none => false

deriving instance DecidableEq for Except

/-- C5. For every comparison node whose data-point path is not present
in the data-point map (never updated), evaluating the comparison yields
`false`, for every comparison operator and every right-hand literal. -/
theorem comparison_missing_point (dataPath : String) (operation : RuleOp)
    (compareValue : String) (dataPoints : List (String × GooseDataPoint))
    (h : dataPoints.lookup dataPath = none) :
    evalNode (.comparison dataPath operation compareValue) dataPoints = .ok false := by
  simp [evalNode, h]

/-- Witness for C5: the path `A` is absent from a one-entry map, and
`A > 100` evaluates to `false` there. -/
theorem comparison_missing_point_witness :
    ([("B", ({ dataType := "bool" } : GooseDataPoint))]).lookup "A" = none ∧
      evalNode (.comparison "A" .GREATER_THAN "100")
        [("B", { dataType := "bool" })] = .ok false :=
  ⟨by decide, comparison_missing_point "A" .GREATER_THAN "100" _ (by decide)⟩

/-- C4 (amended). `BinaryOpNode::evaluate` computes both operands
before combining them, so evaluation is *eager*, not short-circuit:
when the left operand of an `AND` is `false` (resp. of an `OR` is
`true`) the result is `false` (resp. `true`) provided the right operand
evaluates without error, but an evaluation error raised by the right
operand propagates even though the left operand already determines the
boolean result. -/
theorem binaryOp_eager (l r : RuleNode) (dps : List (String × GooseDataPoint)) :
    (evalNode l dps = .ok false →
      (∀ rv, evalNode r dps = .ok rv →
          evalNode (.binaryOp .AND l r) dps = .ok false) ∧
      (∀ e, evalNode r dps = .error e →
          evalNode (.binaryOp .AND l r) dps = .error e)) ∧
    (evalNode l dps = .ok true →
      (∀ rv, evalNode r dps = .ok rv →
          evalNode (.binaryOp .OR l r) dps = .ok true) ∧
      (∀ e, evalNode r dps = .error e →
          evalNode (.binaryOp .OR l r) dps = .error e)) := by
  constructor
  · intro hl
    constructor
    · intro rv hr; simp [evalNode, hl, hr, Bind.bind, Except.bind, pure, Except.pure]
    · intro e hr; simp [evalNode, hl, hr, Bind.bind, Except.bind, pure, Except.pure]
  · intro hl
    constructor
    · intro rv hr; simp [evalNode, hl, hr, Bind.bind, Except.bind, pure, Except.pure]
    · intro e hr; simp [evalNode, hl, hr, Bind.bind, Except.bind, pure, Except.pure]

/-- Witness for C4 (amended): with `A = 0` and `B = 7` as integer data
points, `A == 1` is `false`, `B == 7` is `true`, and
`(A == 1) && (B == 7)` evaluates (both sides) to `false`. -/
theorem binaryOp_eager_witness :
    evalNode (.comparison "A" .EQUALS "1")
        [("A", { dataType := "int", intValue := 0 }),
         ("B", { dataType := "int", intValue := 7 })] = .ok false ∧
      evalNode (.binaryOp .AND (.comparison "A" .EQUALS "1")
          (.comparison "B" .EQUALS "7"))
        [("A", { dataType := "int", intValue := 0 }),
         ("B", { dataType := "int", intValue := 7 })] = .ok false := by
  refine ⟨by decide, ?_⟩
  exact ((binaryOp_eager (.comparison "A" .EQUALS "1") (.comparison "B" .EQUALS "7")
    [("A", { dataType := "int", intValue := 0 }),
     ("B", { dataType := "int", intValue := 7 })]).1 (by decide)).1 true (by decide)

/-- Counterexample to C4 as stated: with integer data points `A = 0`
and `B = 0`, the left operand `A == 1` of the `AND` evaluates to
`false`, yet the whole `AND` does not evaluate to `false` — the right
operand `B == xyz` is still evaluated and its `std::stoi` failure
propagates, so the node evaluates to an error. -/
theorem binaryOp_counterexample :
    evalNode (.comparison "A" .EQUALS "1")
        [("A", { dataType := "int", intValue := 0 }),
         ("B", { dataType := "int", intValue := 0 })] = .ok false ∧
      evalNode (.binaryOp .AND (.comparison "A" .EQUALS "1")
          (.comparison "B" .EQUALS "xyz"))
        [("A", { dataType := "int", intValue := 0 }),
         ("B", { dataType := "int", intValue := 0 })] = .error "stoi" := by
  decide

theorem evaluateRules_find_some (dps : List (String × GooseDataPoint)) :
    ∀ (m : List (String × TripRule)),
      (∀ e ∈ m.takeWhile (fun x => !entryHolds dps x),
        e.2.enabled = true → ∀ ast, e.2.ast = some ast →
          ∃ b, evalNode ast dps = .ok b) →
      ∀ e, m.find? (entryHolds dps) = some e →
        evaluateRules m dps =
          { triggered := true, ruleName := e.2.name,
            message := "Trip rule triggered: " ++ e.2.expression } := by
  intro m
  induction m with
  | nil => intro _ e h; simp at h
  | cons hd rest ih =>
    intro hne e h
    obtain ⟨k, rule⟩ := hd
    by_cases hh : entryHolds dps (k, rule) = true
    · rw [List.find?_cons_of_pos _ hh] at h
      injection h with h
      subst h
      simp only [entryHolds, Bool.and_eq_true] at hh
      obtain ⟨hen, hast⟩ := hh
      cases hab : rule.ast with
      | none => rw [hab] at hast; simp at hast
      | some ast =>
        rw [hab] at hast
        have hast2 : (match evalNode ast dps with
            | Except.ok true => true
            | _ => false) = true := hast
        cases hev : evalNode ast dps with
        | error e2 => rw [hev] at hast2; simp at hast2
        | ok b =>
          rw [hev] at hast2
          cases b with
          | false => simp at hast2
          | true => simp [evaluateRules, hen, hab, hev]
    · have hhf : entryHolds dps (k, rule) = false := by
        cases hx : entryHolds dps (k, rule)
        · rfl
        · exact absurd hx hh
      have htw : ((k, rule) :: rest).takeWhile (fun x => !entryHolds dps x)
          = (k, rule) :: rest.takeWhile (fun x => !entryHolds dps x) := by
        simp [List.takeWhile_cons, hhf]
      rw [List.find?_cons_of_neg _ (by simpa using hh)] at h
      have hne2 : ∀ e2 ∈ rest.takeWhile (fun x => !entryHolds dps x),
          e2.2.enabled = true → ∀ ast, e2.2.ast = some ast →
            ∃ b, evalNode ast dps = .ok b :=
        fun e2 he2 => hne e2 (by rw [htw]; exact List.mem_cons_of_mem _ he2)
      have hrest := ih hne2 e h
      have hhead := hne (k, rule) (by rw [htw]; exact List.mem_cons_self _ _)
      by_cases hen : rule.enabled = true
      · cases hab : rule.ast with
        | none => simpa [evaluateRules, hen, hab] using hrest
        | some ast =>
          obtain ⟨b, hb⟩ := hhead hen ast hab
          cases b with
          | true => exact absurd (by simp [entryHolds, hen, hab, hb]) hh
          | false => simpa [evaluateRules, hen, hab, hb] using hrest
      · have hen2 : rule.enabled = false := by
          cases hrule : rule.enabled
          · rfl
          · exact absurd hrule hen
        simpa [evaluateRules, hen2] using hrest

theorem evaluateRules_find_none (dps : List (String × GooseDataPoint)) :
    ∀ (m : List (String × TripRule)),
      (∀ e ∈ m.takeWhile (fun x => !entryHolds dps x),
        e.2.enabled = true → ∀ ast, e.2.ast = some ast →
          ∃ b, evalNode ast dps = .ok b) →
      m.find? (entryHolds dps) = none →
        evaluateRules m dps =
          { triggered := false, ruleName := "",
            message := "No trip rules triggered" } := by
  intro m
  induction m with
  | nil => intro _ _; simp [evaluateRules]
  | cons hd rest ih =>
    intro hne h
    obtain ⟨k, rule⟩ := hd
    rw [List.find?_cons] at h
    split at h
    · exact absurd h (by simp)
    · rename_i hh
      have htw : ((k, rule) :: rest).takeWhile (fun x => !entryHolds dps x)
          = (k, rule) :: rest.takeWhile (fun x => !entryHolds dps x) := by
        simp [List.takeWhile_cons, hh]
      have hne2 : ∀ e2 ∈ rest.takeWhile (fun x => !entryHolds dps x),
          e2.2.enabled = true → ∀ ast, e2.2.ast = some ast →
            ∃ b, evalNode ast dps = .ok b :=
        fun e2 he2 => hne e2 (by rw [htw]; exact List.mem_cons_of_mem _ he2)
      have hrest := ih hne2 h
      have hhead := hne (k, rule) (by rw [htw]; exact List.mem_cons_self _ _)
      by_cases hen : rule.enabled = true
      · cases hab : rule.ast with
        | none => simpa [evaluateRules, hen, hab] using hrest
        | some ast =>
          obtain ⟨b, hb⟩ := hhead hen ast hab
          cases b with
          | true =>
            exfalso
            have : entryHolds dps (k, rule) = true := by
              simp [entryHolds, hen, hab, hb]
            simp [this] at hh
          | false => simpa [evaluateRules, hen, hab, hb] using hrest
      · have hen2 : rule.enabled = false := by
          cases hrule : rule.enabled
          · rfl
          · exact absurd hrule hen
        simpa [evaluateRules, hen2] using hrest

theorem mem_insertRule {α : Type} {m : List (String × α)} {n : String} {r : α}
    {x : String × α} (h : x ∈ insertRule m n r) : x = (n, r) ∨ x ∈ m := by
  induction m with
  | nil => simpa [insertRule] using h
  | cons hd rest ih =>
    obtain ⟨k, v⟩ := hd
    simp only [insertRule] at h
    split at h
    · rcases List.mem_cons.mp h with h2 | h2
      · exact Or.inl h2
      · exact Or.inr h2
    · split at h
      · rcases List.mem_cons.mp h with h2 | h2
        · exact Or.inl h2
        · exact Or.inr (List.mem_cons_of_mem _ h2)
      · rcases List.mem_cons.mp h with h2 | h2
        · exact Or.inr (by simp [h2])
        · rcases ih h2 with h3 | h3
          · exact Or.inl h3
          · exact Or.inr (List.mem_cons_of_mem _ h3)

theorem pairwise_insertRule {α : Type} (m : List (String × α)) (n : String) (r : α)
    (hp : m.Pairwise (fun a b => strLt a.1 b.1 = true)) :
    (insertRule m n r).Pairwise (fun a b => strLt a.1 b.1 = true) := by
  induction m with
  | nil => simp [insertRule]
  | cons hd rest ih =>
    obtain ⟨k, v⟩ := hd
    rw [List.pairwise_cons] at hp
    obtain ⟨hk, hrest⟩ := hp
    simp only [insertRule]
    split
    · rename_i hlt
      rw [List.pairwise_cons]
      refine ⟨?_, ?_⟩
      · intro y hy
        rcases List.mem_cons.mp hy with h | h
        · subst h; exact hlt
        · exact strLt_trans hlt (hk y h)
      · rw [List.pairwise_cons]; exact ⟨hk, hrest⟩
    · split
      · rename_i hnlt heq
        subst heq
        rw [List.pairwise_cons]
        exact ⟨hk, hrest⟩
      · rename_i hnlt hneq
        have hkn : strLt k n = true := by
          rcases strLt_trichotomy n k with h | h | h
          · exact absurd h hnlt
          · exact absurd h hneq
          · exact h
        rw [List.pairwise_cons]
        refine ⟨?_, ih hrest⟩
        intro y hy
        rcases mem_insertRule hy with h | h
        · subst h; exact hkn
        · exact hk y h

theorem find_first_lex_min (dps : List (String × GooseDataPoint)) :
    ∀ (m : List (String × TripRule)), m.Pairwise (fun a b => strLt a.1 b.1 = true) →
      ∀ e, m.find? (entryHolds dps) = some e →
        ∀ e2 ∈ m, entryHolds dps e2 = true →
          strLt e.1 e2.1 = true ∨ e.1 = e2.1 := by
  intro m
  induction m with
  | nil => intro _ e h; simp at h
  | cons hd rest ih =>
    intro hp e h e2 he2 hh
    rw [List.pairwise_cons] at hp
    obtain ⟨hk, hrest⟩ := hp
    by_cases hhd : entryHolds dps hd = true
    · rw [List.find?_cons_of_pos _ hhd] at h
      injection h with h
      subst h
      rcases List.mem_cons.mp he2 with h2 | h2
      · subst h2; exact Or.inr rfl
      · exact Or.inl (hk e2 h2)
    · rw [List.find?_cons_of_neg _ (by simpa using hhd)] at h
      rcases List.mem_cons.mp he2 with h2 | h2
      · subst h2; exact absurd hh hhd
      · exact ih hrest e h e2 h2 hh

theorem insertRule_comm {α : Type} :
    ∀ (m : List (String × α)) (n1 n2 : String) (r1 r2 : α), n1 ≠ n2 →
      insertRule (insertRule m n1 r1) n2 r2 = insertRule (insertRule m n2 r2) n1 r1 := by
  intro m
  induction m with
  | nil =>
    intro n1 n2 r1 r2 hne
    rcases strLt_trichotomy n1 n2 with h | h | h
    · simp [insertRule, strLt_irrefl, h, strLt_asymm h, hne, hne.symm]
    · exact absurd h hne
    · simp [insertRule, strLt_irrefl, h, strLt_asymm h, hne, hne.symm]
  | cons hd rest ih =>
    intro n1 n2 r1 r2 hne
    obtain ⟨k, v⟩ := hd
    rcases strLt_trichotomy n1 k with h1 | h1 | h1 <;>
      rcases strLt_trichotomy n2 k with h2 | h2 | h2
    · rcases strLt_trichotomy n1 n2 with h3 | h3 | h3
      · simp [insertRule, strLt_irrefl, h1, h2, h3, strLt_asymm h3, hne, hne.symm]
      · exact absurd h3 hne
      · simp [insertRule, strLt_irrefl, h1, h2, h3, strLt_asymm h3, hne, hne.symm]
    · subst h2
      simp [insertRule, strLt_irrefl, h1, strLt_asymm h1, hne, hne.symm]
    · have h3 : strLt n1 n2 = true := strLt_trans h1 h2
      simp [insertRule, strLt_irrefl, h1, h2, strLt_asymm h2, h3, strLt_asymm h3, hne, hne.symm,
        (strLt_ne h2).symm]
    · subst h1
      simp [insertRule, strLt_irrefl, h2, strLt_asymm h2, hne, hne.symm]
    · subst h1; exact absurd h2.symm hne
    · subst h1
      simp [insertRule, strLt_irrefl, h2, strLt_asymm h2, hne, hne.symm, (strLt_ne h2).symm]
    · have h3 : strLt n2 n1 = true := strLt_trans h2 h1
      simp [insertRule, strLt_irrefl, h1, strLt_asymm h1, h2, h3, strLt_asymm h3, hne, hne.symm,
        (strLt_ne h1).symm]
    · subst h2
      simp [insertRule, strLt_irrefl, h1, strLt_asymm h1, hne, hne.symm, (strLt_ne h1).symm]
    · simp [insertRule, strLt_irrefl, strLt_asymm h1, strLt_asymm h2, (strLt_ne h1).symm,
        (strLt_ne h2).symm]
      exact ih n1 n2 r1 r2 hne

/-- C10 (amended). The rule registry `rules_` is a `std::map`, so
iteration is in lexicographic key order independent of installation
order: `insertRule` keeps the keys strictly sorted and commutes for
distinct names.  Provided no enabled rule raises an evaluation error
*before the first rule that holds* — the hypothesis quantifies only
over the prefix of entries that do not hold, the part of the map the
walk visits before triggering; rules after the first holding one may
error freely — `evaluate()` returns the first — in a sorted map, the
lexicographically least — enabled rule whose AST evaluates to `true`
as a triggered result, and a non-triggered result when no enabled rule
holds.  (The proviso is necessary: an evaluation error in that prefix
aborts with a non-triggered error result even when a later rule holds
— see the counterexample.) -/
theorem evaluateRules_spec (m : List (String × TripRule))
    (dps : List (String × GooseDataPoint))
    (hne : ∀ e ∈ m.takeWhile (fun x => !entryHolds dps x),
      e.2.enabled = true → ∀ ast, e.2.ast = some ast →
        ∃ b, evalNode ast dps = .ok b) :
    (∀ e, m.find? (entryHolds dps) = some e →
      evaluateRules m dps =
        { triggered := true, ruleName := e.2.name,
          message := "Trip rule triggered: " ++ e.2.expression }) ∧
    (m.find? (entryHolds dps) = none →
      evaluateRules m dps =
        { triggered := false, ruleName := "",
          message := "No trip rules triggered" }) ∧
    (m.Pairwise (fun a b => strLt a.1 b.1 = true) →
      ∀ e, m.find? (entryHolds dps) = some e →
        ∀ e2 ∈ m, entryHolds dps e2 = true →
          strLt e.1 e2.1 = true ∨ e.1 = e2.1) ∧
    (∀ (n : String) (r : TripRule), m.Pairwise (fun a b => strLt a.1 b.1 = true) →
      (insertRule m n r).Pairwise (fun a b => strLt a.1 b.1 = true)) ∧
    (∀ (n1 n2 : String) (r1 r2 : TripRule), n1 ≠ n2 →
      insertRule (insertRule m n1 r1) n2 r2 = insertRule (insertRule m n2 r2) n1 r1) :=
  ⟨evaluateRules_find_some dps m hne, evaluateRules_find_none dps m hne,
   find_first_lex_min dps m, fun n r hp => pairwise_insertRule m n r hp,
   fun n1 n2 r1 r2 h => insertRule_comm m n1 n2 r1 r2 h⟩

/-- Witness for C10 (amended), twice over: with `A = 2` (int), of the
rules `r1 : A == 1` and `r2 : A == 2` only `r2` holds and `evaluate()`
returns `r2` triggered; and with the holding rule `a : A == 2` first,
a rule `b : A == xyz` that *would* error is never reached — the
hypothesis covers only the prefix before the first holding rule, so
the theorem still applies and `a` is returned triggered. -/
theorem evaluateRules_spec_witness :
    evaluateRules
        [("r1", { name := "r1", expression := "A == 1",
                  ast := some (.comparison "A" .EQUALS "1"), enabled := true }),
         ("r2", { name := "r2", expression := "A == 2",
                  ast := some (.comparison "A" .EQUALS "2"), enabled := true })]
        [("A", { dataType := "int", intValue := 2 })]
      = { triggered := true, ruleName := "r2",
          message := "Trip rule triggered: A == 2" } ∧
    evaluateRules
        [("a", { name := "a", expression := "A == 2",
                 ast := some (.comparison "A" .EQUALS "2"), enabled := true }),
         ("b", { name := "b", expression := "A == xyz",
                 ast := some (.comparison "A" .EQUALS "xyz"), enabled := true })]
        [("A", { dataType := "int", intValue := 2 })]
      = { triggered := true, ruleName := "a",
          message := "Trip rule triggered: A == 2" } :=
  ⟨(evaluateRules_spec
      [("r1", { name := "r1", expression := "A == 1",
                ast := some (.comparison "A" .EQUALS "1"), enabled := true }),
       ("r2", { name := "r2", expression := "A == 2",
                ast := some (.comparison "A" .EQUALS "2"), enabled := true })]
      [("A", { dataType := "int", intValue := 2 })] (by decide)).1
    ("r2", { name := "r2", expression := "A == 2",
             ast := some (.comparison "A" .EQUALS "2"), enabled := true })
    (by decide),
   (evaluateRules_spec
      [("a", { name := "a", expression := "A == 2",
               ast := some (.comparison "A" .EQUALS "2"), enabled := true }),
       ("b", { name := "b", expression := "A == xyz",
               ast := some (.comparison "A" .EQUALS "xyz"), enabled := true })]
      [("A", { dataType := "int", intValue := 2 })] (by decide)).1
    ("a", { name := "a", expression := "A == 2",
            ast := some (.comparison "A" .EQUALS "2"), enabled := true })
    (by decide)⟩

/-- Counterexample to C10 as stated: with `A = 0` (int) and the sorted
rule map built by installing `b : A == 0` then `a : A == xyz`, the
lexicographically first enabled rule whose AST evaluates to `true` is
`b`, yet `evaluate()` returns a *non-triggered* result because rule
`a`, visited first, raises a `std::stoi` evaluation error that aborts
the walk. -/
theorem evaluateRules_counterexample :
    insertRule (insertRule ([] : List (String × TripRule))
        "b" ({ name := "b", expression := "A == 0",
               ast := some (.comparison "A" .EQUALS "0"), enabled := true } : TripRule))
        "a" ({ name := "a", expression := "A == xyz",
               ast := some (.comparison "A" .EQUALS "xyz"), enabled := true } : TripRule)
      = [("a", { name := "a", expression := "A == xyz",
                 ast := some (.comparison "A" .EQUALS "xyz"), enabled := true }),
         ("b", { name := "b", expression := "A == 0",
                 ast := some (.comparison "A" .EQUALS "0"), enabled := true })] ∧
    entryHolds [("A", { dataType := "int", intValue := 0 })]
        ("b", { name := "b", expression := "A == 0",
                ast := some (.comparison "A" .EQUALS "0"), enabled := true }) = true ∧
    evaluateRules
        [("a", { name := "a", expression := "A == xyz",
                 ast := some (.comparison "A" .EQUALS "xyz"), enabled := true }),
         ("b", { name := "b", expression := "A == 0",
                 ast := some (.comparison "A" .EQUALS "0"), enabled := true })]
        [("A", { dataType := "int", intValue := 0 })]
      = { triggered := false, ruleName := "",
          message := "Error evaluating rule \x27a\x27: stoi" } := by
  refine ⟨?_, by decide, by decide⟩
  decide

/-! ## SV publisher instance
From `src/backend/src/core/include/sv_publisher_instance.hpp` and
`src/backend/src/core/src/sv_publisher_instance.cpp`. -/

/-- Data source of an SV stream (`DataSource`,
`sv_publisher_instance.hpp`, lines 16–20). -/
inductive DataSource where
  | MANUAL | COMTRADE | CSV
deriving DecidableEq, Repr

/-- Stream configuration (`SVConfig`, `sv_publisher_instance.hpp`,
lines 22–34).  `uint16_t`/`uint8_t`/`uint32_t` fields are `Nat`s
reduced at the casts; `double` is carried as `ℚ`. -/
structure SVConfig where
  appId : String
  macDst : String
  macSrc : String
  vlanId : Nat
  vlanPrio : Nat
  svId : String
  dstAddress : String
  nominalFreq : ℚ
  sampleRate : Nat
  dataSource : DataSource
  filePath : String
deriving DecidableEq, Repr

/-- A phasor (`Phasor`, `sv_publisher_instance.hpp`, lines 36–39). -/
structure Phasor where
  magnitude : ℚ
  angle : ℚ
deriving DecidableEq, Repr

/-- One harmonic entry of the publisher's `harmonics_` JSON payload
(order, magnitude, angle — spec §3 data model); the publisher only
stores and returns it. -/
def HarmonicEntry := Nat × ℚ × ℚ
deriving DecidableEq

/-- The mutable state of one SV publisher
(`SVPublisherInstance`, `sv_publisher_instance.hpp`, lines 79–86):
id, config, running flag, phasor vector, harmonics payload and the
`uint32_t` sample counter.  The raw socket is platform I/O and is not
modelled; `sendSVPacket` returns early only when socket creation
failed, which the constructor treats as fatal, so the socket is live
whenever an instance exists. -/
structure SVPublisherInstance where
  id : String
  config : SVConfig
  running : Bool
  phasors : List Phasor
  harmonics : List HarmonicEntry
  sampleCounter : Nat
deriving DecidableEq

/-- `SVPublisherInstance::start` (`sv_publisher_instance.cpp`, lines
201–204): set running and reset the counter. -/
def SVPublisherInstance.start (s : SVPublisherInstance) : SVPublisherInstance :=
  { s with running := true, sampleCounter := 0 }

/-- `SVPublisherInstance::stop` (lines 206–208). -/
def SVPublisherInstance.stop (s : SVPublisherInstance) : SVPublisherInstance :=
  { s with running := false }

/-- The 16-bit `smpCnt` value `sendSVPacket` writes into the frame
(`sv_publisher_instance.cpp`, line 314):
`htons(static_cast<uint16_t>(sampleCounter_ % config_.sampleRate))` —
the counter modulo the sample rate, truncated to 16 bits.
(`sampleRate = 0` would be division by zero, C++ undefined behaviour;
the theorems assume a positive rate.) -/
def SVPublisherInstance.frameSmpCnt (s : SVPublisherInstance) : Nat :=
  s.sampleCounter % s.config.sampleRate % 65536

/-- `SVPublisherInstance::tick` (`sv_publisher_instance.cpp`, lines
375–382): do nothing unless running; otherwise send one SV packet and
increment the 32-bit sample counter.  The emission is reported as the
`smpCnt` field of the sent frame (`some` value), `none` when no frame
was sent; the remaining frame bytes play no role in the claims. -/
def SVPublisherInstance.tick (s : SVPublisherInstance) :
    SVPublisherInstance × Option Nat :=
  if !s.running then (s, none)
  else ({ s with sampleCounter := (s.sampleCounter + 1) % 2 ^ 32 }, some s.frameSmpCnt)

/-- `n` consecutive `tick()` calls. -/
def SVPublisherInstance.runTicks (s : SVPublisherInstance) : Nat → SVPublisherInstance
  | 0 => s
  | n + 1 => (s.runTicks n).tick.1

theorem runTicks_running (s : SVPublisherInstance) (h : s.running = true)
    (hc : s.sampleCounter < 2 ^ 32) :
    ∀ n, (s.runTicks n).running = true ∧ (s.runTicks n).config = s.config ∧
      (s.runTicks n).phasors = s.phasors ∧
      (s.runTicks n).sampleCounter = (s.sampleCounter + n) % 2 ^ 32 := by
  intro n
  induction n with
  | zero =>
    refine ⟨h, rfl, rfl, ?_⟩
    simp [SVPublisherInstance.runTicks]
    omega
  | succ n ih =>
    obtain ⟨h1, h2, h3, h4⟩ := ih
    simp only [SVPublisherInstance.runTicks, SVPublisherInstance.tick, h1,
      Bool.not_true, Bool.false_eq_true, if_false]
    exact ⟨trivial, h2, h3, by rw [h4]; omega⟩

/-- A concrete stream configuration (the defaults of
`SVPublisherManager::parseConfig`), used by witnesses. -/
def sampleConfig : SVConfig :=
  { appId := "0x4000", macDst := "01:0C:CD:04:00:00",
    macSrc := "AA:BB:CC:DD:EE:01", vlanId := 100, vlanPrio := 4,
    svId := "IED1MU01", dstAddress := "", nominalFreq := 60,
    sampleRate := 4800, dataSource := .MANUAL, filePath := "" }

/-- A concrete stopped publisher with `sampleRate = 4800`, used by
witnesses. -/
def samplePub : SVPublisherInstance :=
  { id := "s1", config := sampleConfig, running := false,
    phasors := [], harmonics := [], sampleCounter := 0 }

/-- C9. For a publisher whose running flag is false, `tick()` is a
no-op: it emits no frame and leaves the whole state — sample counter,
configuration, phasor set, harmonic set — unchanged, and this holds
for any number of consecutive ticks; so the counter advances only on
ticks performed while running. -/
theorem tick_not_running (s : SVPublisherInstance) (h : s.running = false) :
    s.tick = (s, none) ∧
    (∀ n, s.runTicks n = s) ∧
    (∀ n, (s.runTicks n).tick.2 = none) := by
  have htick : s.tick = (s, none) := by
    simp [SVPublisherInstance.tick, h]
  have hrun : ∀ n, s.runTicks n = s := by
    intro n
    induction n with
    | zero => rfl
    | succ n ih => simp [SVPublisherInstance.runTicks, ih, htick]
  exact ⟨htick, hrun, fun n => by rw [hrun n, htick]⟩

/-- Witness for C9: the concrete stopped publisher, ticked three
times, is unchanged and emits nothing. -/
theorem tick_not_running_witness :
    samplePub.running = false ∧ samplePub.runTicks 3 = samplePub ∧
      (samplePub.runTicks 3).tick.2 = none :=
  ⟨rfl, (tick_not_running samplePub rfl).2.1 3,
    (tick_not_running samplePub rfl).2.2 3⟩

/-- C2 (amended). After `start()` and `n` running ticks
(`n < 2 ^ 32`, `0 < sampleRate ≤ 65536`), the internal sample counter
equals `n` — in particular it is *not* reset to zero upon reaching
`sampleRate` — and the frame emitted by the next tick carries
`smpCnt = n % sampleRate` (not `n % 65536`).  Consequently for
`sampleRate = 4800` the wire series over ticks `0, 1, …` is
`0, 1, …, 4799, 0, …` as the claim's concrete example says, but the
wrap comes from the modulo applied at emission time, not from a
counter reset. -/
theorem smpCnt_wire (s : SVPublisherInstance) (n : Nat)
    (h1 : 0 < s.config.sampleRate) (h2 : s.config.sampleRate ≤ 65536)
    (h3 : n < 2 ^ 32) :
    (s.start.runTicks n).sampleCounter = n ∧
    (s.start.runTicks n).tick.2 = some (n % s.config.sampleRate) := by
  have hst : s.start.running = true := rfl
  have hc : s.start.sampleCounter < 2 ^ 32 := by
    show 0 < 2 ^ 32
    norm_num
  obtain ⟨hr, hcfg, -, hcnt⟩ := runTicks_running s.start hst hc n
  have hcnt2 : (s.start.runTicks n).sampleCounter = n := by
    rw [hcnt]
    show (0 + n) % 2 ^ 32 = n
    omega
  refine ⟨hcnt2, ?_⟩
  simp only [SVPublisherInstance.tick, hr, Bool.not_true, Bool.false_eq_true,
    if_false]
  congr 1
  simp only [SVPublisherInstance.frameSmpCnt, hcnt2, hcfg]
  show n % s.config.sampleRate % 65536 = n % s.config.sampleRate
  have : n % s.config.sampleRate < s.config.sampleRate := Nat.mod_lt _ h1
  omega

/-- Witness for C2 (amended) at `sampleRate = 4800`, `n = 4800`: after
4800 running ticks the counter is 4800 (no reset) and the next frame
carries `smpCnt = 0`. -/
theorem smpCnt_wire_witness :
    (samplePub.start.runTicks 4800).sampleCounter = 4800 ∧
      (samplePub.start.runTicks 4800).tick.2 = some 0 := by
  obtain ⟨ha, hb⟩ := smpCnt_wire samplePub 4800
    (by norm_num [samplePub, sampleConfig]) (by norm_num [samplePub, sampleConfig])
    (by norm_num)
  exact ⟨ha, by simpa [samplePub, sampleConfig] using hb⟩

/-- Counterexample to C2 as stated: `sampleRate = 4800`; after
`start()` and 4800 ticks the counter has *reached* `sampleRate` yet is
4800, not reset to zero (and after one more tick it is 4801), and the
frame emitted at that point carries `smpCnt = 0` whereas
`sample_counter mod 65536 = 4800`. -/
theorem tick_running_smpCnt (s : SVPublisherInstance) (h : s.running = true) :
    s.tick.2 = some s.frameSmpCnt := by
  simp [SVPublisherInstance.tick, h]

theorem smpCnt_counterexample :
    (samplePub.start.runTicks 4800).sampleCounter = 4800 ∧
    (samplePub.start.runTicks 4801).sampleCounter = 4801 ∧
    (samplePub.start.runTicks 4800).tick.2 = some 0 ∧
    (4800 : Nat) % 65536 = 4800 ∧ (0 : Nat) ≠ 4800 % 65536 := by
  have hst : samplePub.start.running = true := rfl
  have hzero : samplePub.start.sampleCounter < 2 ^ 32 := by
    show (0 : Nat) < 2 ^ 32
    norm_num
  obtain ⟨hr, hcfg, -, hcnt⟩ := runTicks_running samplePub.start hst hzero 4800
  obtain ⟨-, -, -, hcnt2⟩ := runTicks_running samplePub.start hst hzero 4801
  have hsc : samplePub.start.sampleCounter = 0 := rfl
  rw [hsc] at hcnt hcnt2
  norm_num at hcnt hcnt2
  refine ⟨hcnt, hcnt2, ?_, by norm_num, by norm_num⟩
  rw [tick_running_smpCnt _ hr]
  rw [SVPublisherInstance.frameSmpCnt, hcnt, hcfg]
  have hrate : samplePub.start.config.sampleRate = 4800 := rfl
  rw [hrate]

/-! ## SV publisher manager (stream registry)
From `src/backend/src/core/src/sv_publisher_manager.cpp`. -/

/-- The JSON object handed to `createStream`/`parseConfig`, restricted
to the keys the code reads; `none` models an absent key
(`nlohmann::json::value(key, default)` then yields the default). -/
structure SVStreamRequest where
  appId : Option String := none
  macDst : Option String := none
  macSrc : Option String := none
  vlanId : Option Int := none
  vlanPrio : Option Int := none
  svId : Option String := none
  dstAddress : Option String := none
  nominalFreq : Option ℚ := none
  sampleRate : Option Int := none
  dataSource : Option String := none
  filePath : Option String := none
deriving DecidableEq

/-- `SVPublisherManager::parseConfig` (`sv_publisher_manager.cpp`,
lines 47–75).  Each field is `json.value(key, default)`; the
`static_cast`s to `uint16_t` / `uint8_t` / `uint32_t` reduce modulo
`2^16` / `2^8` / `2^32`.  The *only* validation performed is the
`dataSource` tag, whose unknown values throw `std::invalid_argument`;
VLAN id and priority, the MAC strings and the sample rate are stored
as given, without any range or syntax check. -/
def parseConfig (json : SVStreamRequest) : Except String SVConfig :=
  let config : SVConfig :=
    { appId := json.appId.getD "0x4000"
      macDst := json.macDst.getD "01:0C:CD:04:00:00"
      macSrc := json.macSrc.getD "AA:BB:CC:DD:EE:01"
      vlanId := ((json.vlanId.getD 100) % 65536).toNat
      vlanPrio := ((json.vlanPrio.getD 4) % 256).toNat
      svId := json.svId.getD "IED1MU01"
      dstAddress := json.dstAddress.getD ""
      nominalFreq := json.nominalFreq.getD 60
      sampleRate := ((json.sampleRate.getD 4800) % 4294967296).toNat
      dataSource := .MANUAL
      filePath := "" }
  let dataSourceStr := json.dataSource.getD "MANUAL"
  if dataSourceStr = "MANUAL" then
    .ok { config with dataSource := .MANUAL }
  else if dataSourceStr = "COMTRADE" then
    .ok { config with dataSource := .COMTRADE, filePath := json.filePath.getD "" }
  else if dataSourceStr = "CSV" then
    .ok { config with dataSource := .CSV, filePath := json.filePath.getD "" }
  else
    .error ("Invalid dataSource: " ++ dataSourceStr)

/-- `SVPublisherManager::createStream` (`sv_publisher_manager.cpp`,
lines 77–87): parse the config (which can only fail on the
`dataSource` tag), construct an `SVPublisherInstance` and store it in
the `std::map` under a fresh id.  `generateId()` is random, so the id
is a parameter; the constructor (`sv_publisher_instance.cpp`, lines
31–52) starts stopped with counter 0 and, in MANUAL mode, eight zero
phasors (its raw-socket setup is platform I/O, not modelled). -/
def createStream (json : SVStreamRequest) (id : String)
    (streams : List (String × SVPublisherInstance)) :
    Except String (String × List (String × SVPublisherInstance)) := do
  let svConfig ← parseConfig json
  let inst : SVPublisherInstance :=
    { id := id, config := svConfig, running := false,
      phasors := if svConfig.dataSource = .MANUAL then List.replicate 8 ⟨0, 0⟩ else [],
      harmonics := [], sampleCounter := 0 }
  pure (id, insertRule streams id inst)

/-- C3 (amended). Stream creation validates only the `dataSource`
tag: an unknown tag fails with an invalid-argument error and no
stream is stored, while *every* request whose tag is absent or one of
`MANUAL`/`COMTRADE`/`CSV` succeeds — the VLAN fields, the MAC strings
and the sample rate are accepted unchecked (out-of-range values
included, see the counterexample) — and the new stream id is returned
with the stream added to the registry. -/
theorem createStream_spec (json : SVStreamRequest) (id : String)
    (streams : List (String × SVPublisherInstance)) :
    (∀ tag, json.dataSource = some tag → tag ≠ "MANUAL" → tag ≠ "COMTRADE" →
      tag ≠ "CSV" →
      parseConfig json = .error ("Invalid dataSource: " ++ tag) ∧
      createStream json id streams = .error ("Invalid dataSource: " ++ tag)) ∧
    ((json.dataSource = none ∨ json.dataSource = some "MANUAL" ∨
        json.dataSource = some "COMTRADE" ∨ json.dataSource = some "CSV") →
      ∃ cfg, parseConfig json = .ok cfg ∧
        createStream json id streams =
          .ok (id, insertRule streams id
            { id := id, config := cfg, running := false,
              phasors := if cfg.dataSource = .MANUAL
                then List.replicate 8 ⟨0, 0⟩ else [],
              harmonics := [], sampleCounter := 0 })) := by
  constructor
  · intro tag htag h1 h2 h3
    have hp : parseConfig json = .error ("Invalid dataSource: " ++ tag) := by
      simp [parseConfig, htag, h1, h2, h3]
    exact ⟨hp, by simp [createStream, hp, Bind.bind, Except.bind]⟩
  · intro hds
    cases hsrc : parseConfig json with
    | error e =>
      exfalso
      rcases hds with h | h | h | h <;> simp [parseConfig, h] at hsrc
    | ok cfg =>
      exact ⟨cfg, rfl, by
        simp [createStream, hsrc, Bind.bind, Except.bind, pure, Except.pure]⟩

/-- Witness for C3 (amended): the empty request (all defaults)
creates a stream with the default config under the given id; a
request with dataSource tag `BOGUS` is refused. -/
theorem createStream_spec_witness :
    createStream ({} : SVStreamRequest) "id-1" []
      = .ok ("id-1",
          [("id-1",
            { id := "id-1", config := sampleConfig, running := false,
              phasors := List.replicate 8 ⟨0, 0⟩, harmonics := [],
              sampleCounter := 0 })]) ∧
    createStream ({ dataSource := some "BOGUS" } : SVStreamRequest) "id-1" []
      = .error "Invalid dataSource: BOGUS" := by
  constructor
  · have h0 : parseConfig ({} : SVStreamRequest) = .ok sampleConfig := rfl
    obtain ⟨cfg, h1, h2⟩ :=
      (createStream_spec ({} : SVStreamRequest) "id-1" []).2 (Or.inl rfl)
    rw [h0] at h1
    injection h1 with h1
    subst h1
    exact h2
  · exact ((createStream_spec ({ dataSource := some "BOGUS" } : SVStreamRequest)
      "id-1" []).1 "BOGUS" rfl (by decide) (by decide) (by decide)).2

/-- Counterexample to C3 as stated: a request with `vlanId = 5000`
(`> 4095`), `vlanPrio = 9` (`> 7`), a malformed destination MAC and a
zero sample rate is *not* rejected — creation succeeds, the stream is
added and an id is returned. -/
theorem createStream_counterexample :
    createStream ({ macDst := some "bogus", vlanId := some 5000,
                    vlanPrio := some 9, sampleRate := some 0 } : SVStreamRequest)
        "id-1" []
      = .ok ("id-1",
          [("id-1",
            { id := "id-1",
              config := { appId := "0x4000", macDst := "bogus",
                          macSrc := "AA:BB:CC:DD:EE:01", vlanId := 5000,
                          vlanPrio := 9, svId := "IED1MU01", dstAddress := "",
                          nominalFreq := 60, sampleRate := 0,
                          dataSource := .MANUAL, filePath := "" },
              running := false, phasors := List.replicate 8 ⟨0, 0⟩,
              harmonics := [], sampleCounter := 0 })]) ∧
    4095 < 5000 ∧ 7 < 9 := by
  exact ⟨rfl, by norm_num, by norm_num⟩

/-! ## Sequence engine
From `src/backend/src/sequence/include/sequence_engine.hpp` and
`src/backend/src/sequence/src/sequence_engine.cpp`. -/

/-- `TransitionType` (`sequence_engine.hpp`, lines 19–22). -/
inductive TransitionType where
  | TIME | GOOSE_TRIP
deriving DecidableEq, Repr

/-- `ChannelPhasor` (`sequence_engine.hpp`, lines 27–33). -/
structure ChannelPhasor where
  mag : ℚ
  angleDeg : ℚ
deriving DecidableEq, Repr

/-- `StreamPhasorState` (`sequence_engine.hpp`, lines 38–43); the
channel `std::map` is an association list. -/
structure StreamPhasorState where
  freq : ℚ
  channels : List (String × ChannelPhasor)
deriving DecidableEq, Repr

/-- `SequenceState` (`sequence_engine.hpp`, lines 58–65); the
single-field `StateTransition` wrapper is flattened into its
`TransitionType`. -/
structure SequenceState where
  name : String
  durationSec : ℚ
  transition : TransitionType
  phasors : List (String × StreamPhasorState)
deriving DecidableEq, Repr

/-- The observable actions of the sequence thread relevant to the
claims, each tagged with the index of the state during whose
processing it happens. -/
inductive SeqEvent where
  | setIndex (i : Nat)
  | phasorUpdate (i : Nat) (streamId : String)
  | transitionFired (i : Nat)
  | stopped
deriving DecidableEq, Repr

/-- How one loop iteration of `sequenceThread` resolves, abstracting
the real-time waits: `stopAtEntry` is a stop request observed at the
loop head (`sequence_engine.cpp`, lines 158–172); `run fired` means
the state was entered and `waitForTransition` returned — `fired =
true` when the transition predicate fired (elapsed ≥ duration, or,
for a `GOOSE_TRIP` state, the trip flag observed; lines 247–317),
`fired = false` when a stop request interrupted the wait. -/
inductive StepObs where
  | stopAtEntry
  | run (fired : Bool)
deriving DecidableEq, Repr

/-- `SequenceEngine::applyState` (`sequence_engine.cpp`, lines
219–238): one phasor-update callback per active stream that has an
override in the state, in active-stream order; a stream without an
override only logs a warning. -/
def applyStateEvents (i : Nat) (activeStreams : List String)
    (state : SequenceState) : List SeqEvent :=
  activeStreams.filterMap fun sid =>
    if (state.phasors.lookup sid).isSome then some (.phasorUpdate i sid) else none

/-- The event trace of `SequenceEngine::sequenceThread`
(`sequence_engine.cpp`, lines 151–217) from state `i` on, driven by
one `StepObs` per remaining state: each iteration checks for a stop
request, stores `currentStateIndex_ = i` (line 177), applies the
state's phasors via `applyState` (line 190), then blocks in
`waitForTransition` (line 193); the next state is reached only when
the wait returned `true`. -/
def runStates : List SequenceState → List StepObs → Nat → List String → List SeqEvent
  | [], _, _, _ => []
  | _ :: _, [], _, _ => []
  | state :: states, obs :: obss, i, activeStreams =>
    match obs with
    | .stopAtEntry => [.stopped]
    | .run fired =>
      .setIndex i ::
        (applyStateEvents i activeStreams state ++
          (if fired then
            .transitionFired i :: runStates states obss (i + 1) activeStreams
          else [.stopped]))

/-- `x` occurs strictly before `y` in the trace `tr`. -/
def eventBefore (x y : SeqEvent) (tr : List SeqEvent) : Prop :=
  ∃ p q r, tr = p ++ x :: (q ++ y :: r)

theorem eventBefore_extend {x y : SeqEvent} {tr : List SeqEvent}
    (pre : List SeqEvent) (h : eventBefore x y tr) :
    eventBefore x y (pre ++ tr) := by
  obtain ⟨p, q, r, hp⟩ := h
  exact ⟨pre ++ p, q, r, by simp [hp]⟩

theorem mem_applyStateEvents {e : SeqEvent} {i : Nat} {activeStreams : List String}
    {state : SequenceState} (h : e ∈ applyStateEvents i activeStreams state) :
    ∃ sid, e = .phasorUpdate i sid := by
  simp only [applyStateEvents, List.mem_filterMap] at h
  obtain ⟨a, -, ha⟩ := h
  split at ha
  · refine ⟨a, ?_⟩
    injection ha with ha
    exact ha.symm
  · exact absurd ha (by simp)

theorem runStates_enter_before_apply :
    ∀ (states : List SequenceState) (obss : List StepObs) (i : Nat)
      (activeStreams : List String) (k : Nat) (sid : String),
      SeqEvent.phasorUpdate k sid ∈ runStates states obss i activeStreams →
      eventBefore (.setIndex k) (.phasorUpdate k sid)
        (runStates states obss i activeStreams) := by
  intro states
  induction states with
  | nil => intro obss i streams k sid h; simp [runStates] at h
  | cons state states ih =>
    intro obss i streams k sid h
    cases obss with
    | nil => simp [runStates] at h
    | cons obs obss =>
      cases obs with
      | stopAtEntry => simp [runStates] at h
      | run fired =>
        cases fired with
        | false =>
          simp only [runStates, Bool.false_eq_true, if_false,
            List.mem_cons, List.mem_append] at h
          rcases h with h | h | h
          · exact absurd h (by simp)
          · obtain ⟨sid2, hs⟩ := mem_applyStateEvents h
            injection hs with hk hsid
            subst hk
            subst hsid
            obtain ⟨s, t, hst⟩ := List.append_of_mem h
            refine ⟨[], s, t ++ [.stopped], ?_⟩
            simp only [runStates, Bool.false_eq_true, if_false, hst,
              List.nil_append, List.cons_append, List.append_assoc]
          · simp at h
        | true =>
          simp only [runStates, if_true, List.mem_cons, List.mem_append] at h
          rcases h with h | h | h
          · exact absurd h (by simp)
          · obtain ⟨sid2, hs⟩ := mem_applyStateEvents h
            injection hs with hk hsid
            subst hk
            subst hsid
            obtain ⟨s, t, hst⟩ := List.append_of_mem h
            refine ⟨[], s,
              t ++ .transitionFired k :: runStates states obss (k + 1) streams, ?_⟩
            simp only [runStates, if_true, hst, List.nil_append,
              List.cons_append, List.append_assoc]
          · rcases h with h | h
            · exact absurd h (by simp)
            · have hrec := ih obss (i + 1) streams k sid h
              have hform : runStates (state :: states) (.run true :: obss) i streams
                  = (SeqEvent.setIndex i ::
                      (applyStateEvents i streams state ++ [.transitionFired i]))
                    ++ runStates states obss (i + 1) streams := by
                simp [runStates, List.append_assoc]
              rw [hform]
              exact eventBefore_extend _ hrec

theorem runStates_fire_before_next :
    ∀ (states : List SequenceState) (obss : List StepObs) (i : Nat)
      (activeStreams : List String) (k : Nat) (sid : String), i ≤ k →
      SeqEvent.phasorUpdate (k + 1) sid ∈ runStates states obss i activeStreams →
      eventBefore (.transitionFired k) (.phasorUpdate (k + 1) sid)
        (runStates states obss i activeStreams) := by
  intro states
  induction states with
  | nil => intro obss i streams k sid hik h; simp [runStates] at h
  | cons state states ih =>
    intro obss i streams k sid hik h
    cases obss with
    | nil => simp [runStates] at h
    | cons obs obss =>
      cases obs with
      | stopAtEntry => simp [runStates] at h
      | run fired =>
        cases fired with
        | false =>
          simp only [runStates, Bool.false_eq_true, if_false,
            List.mem_cons, List.mem_append] at h
          rcases h with h | h | h
          · exact absurd h (by simp)
          · obtain ⟨sid2, hs⟩ := mem_applyStateEvents h
            injection hs with hk hsid
            omega
          · simp at h
        | true =>
          simp only [runStates, if_true, List.mem_cons, List.mem_append] at h
          rcases h with h | h | h
          · exact absurd h (by simp)
          · obtain ⟨sid2, hs⟩ := mem_applyStateEvents h
            injection hs with hk hsid
            omega
          · rcases h with h | h
            · exact absurd h (by simp)
            · by_cases hki : i = k
              · subst hki
                obtain ⟨s, t, hst⟩ := List.append_of_mem h
                refine ⟨SeqEvent.setIndex i :: applyStateEvents i streams state,
                  s, t, ?_⟩
                simp only [runStates, if_true, hst, List.cons_append,
                  List.append_assoc]
              · have hik2 : i + 1 ≤ k := by omega
                have hrec := ih obss (i + 1) streams k sid hik2 h
                have hform : runStates (state :: states) (.run true :: obss) i streams
                    = (SeqEvent.setIndex i ::
                        (applyStateEvents i streams state ++ [.transitionFired i]))
                      ++ runStates states obss (i + 1) streams := by
                  simp [runStates, List.append_assoc]
                rw [hform]
                exact eventBefore_extend _ hrec

/-- C6. In every sequence run (any states, any resolution of the
waits, any active-stream list): the engine stores
`current_state_index = i` before any phasor-update callback of state
`i`, and no phasor-update callback of state `i + 1` happens before
the transition predicate of state `i` has fired (`waitForTransition`
returned on elapsed-duration or observed trip). -/
theorem sequence_order (states : List SequenceState) (obss : List StepObs)
    (activeStreams : List String) (k : Nat) (sid : String) :
    (SeqEvent.phasorUpdate k sid ∈ runStates states obss 0 activeStreams →
      eventBefore (.setIndex k) (.phasorUpdate k sid)
        (runStates states obss 0 activeStreams)) ∧
    (SeqEvent.phasorUpdate (k + 1) sid ∈ runStates states obss 0 activeStreams →
      eventBefore (.transitionFired k) (.phasorUpdate (k + 1) sid)
        (runStates states obss 0 activeStreams)) :=
  ⟨runStates_enter_before_apply states obss 0 activeStreams k sid,
   runStates_fire_before_next states obss 0 activeStreams k sid (Nat.zero_le k)⟩

/-- A concrete two-state sequence for the C6 witness. -/
def seqStateA : SequenceState :=
  { name := "prefault", durationSec := 1, transition := .TIME,
    phasors := [("st1", { freq := 60, channels := [] })] }

/-- Second concrete state for the C6 witness. -/
def seqStateB : SequenceState :=
  { name := "fault", durationSec := 1, transition := .GOOSE_TRIP,
    phasors := [("st1", { freq := 60, channels := [] })] }

/-- Witness for C6 on the concrete two-state run: state 1's index is
stored before its phasor callback, and state 0's transition fired
before state 1's phasor callback. -/
theorem sequence_order_witness :
    eventBefore (.setIndex 1) (.phasorUpdate 1 "st1")
      (runStates [seqStateA, seqStateB] [.run true, .run true] 0 ["st1"]) ∧
    eventBefore (.transitionFired 0) (.phasorUpdate 1 "st1")
      (runStates [seqStateA, seqStateB] [.run true, .run true] 0 ["st1"]) :=
  ⟨(sequence_order [seqStateA, seqStateB] [.run true, .run true] ["st1"] 1 "st1").1
      (by decide),
   (sequence_order [seqStateA, seqStateB] [.run true, .run true] ["st1"] 0 "st1").2
      (by decide)⟩

/-! ## Differential tester
From `src/backend/src/testers/include/differential_tester.hpp` and
`src/backend/src/testers/src/differential_tester.cpp`.  The `double`
arithmetic is carried exactly over `ℚ`; the claim's values are dyadic
and exact in both. -/

/-- `DifferentialPoint` (`differential_tester.hpp`, lines 13–18). -/
structure DifferentialPoint where
  Ir : ℚ
  Id : ℚ
  expectedTime : ℚ
  label : String
deriving DecidableEq, Repr

/-- `DifferentialResult` (`differential_tester.hpp`, lines 23–33). -/
structure DifferentialResult where
  Ir : ℚ
  Id : ℚ
  Is1 : ℚ
  Is2 : ℚ
  tripped : Bool
  tripTime : ℚ
  expectedTime : ℚ
  passed : Bool
  error : String
deriving DecidableEq, Repr

/-- `DifferentialTester::calculateSideCurrents`
(`differential_tester.cpp`, lines 37–48):
`Is1 = Ir + Id/2`, `Is2 = -(Ir - Id/2)`. -/
def calculateSideCurrents (Ir Id : ℚ) : ℚ × ℚ :=
  (Ir + Id / 2, -(Ir - Id / 2))

/-- The externally visible actions of `testPoint`, in order. -/
inductive TesterEvent where
  | side1Set (v : ℚ)
  | side2Set (v : ℚ)
  | monitorTrip
deriving DecidableEq, Repr

/-- `DifferentialTester::testPoint` (`differential_tester.cpp`, lines
92–144): compute the side currents, invoke the side-1 then the side-2
current setter with them, then monitor the trip flag and fill in the
pass/fail verdict.  The real-time `monitorTrip` outcome is an oracle
`(tripped, tripTime)`; on no trip the measured time stays 0.  Returns
the result and the ordered action trace. -/
def testPoint (point : DifferentialPoint) (timeTolerance : ℚ)
    (tripped : Bool) (tripTime : ℚ) : DifferentialResult × List TesterEvent :=
  let (Is1, Is2) := calculateSideCurrents point.Ir point.Id
  let events : List TesterEvent := [.side1Set Is1, .side2Set Is2, .monitorTrip]
  let tTime : ℚ := if tripped then tripTime else 0
  let (passed, error) : Bool × String :=
    if point.expectedTime = 0 then
      if tripped && tTime < timeTolerance then (true, "")
      else if tripped then (false, "Trip time too slow for instantaneous operation")
      else (false, "")
    else if tripped then
      if |tTime - point.expectedTime| ≤ timeTolerance then (true, "")
      else (false, "Trip time outside tolerance")
    else (false, "Relay did not trip within max test duration")
  ({ Ir := point.Ir, Id := point.Id, Is1 := Is1, Is2 := Is2,
     tripped := tripped, tripTime := tTime, expectedTime := point.expectedTime,
     passed := passed, error := error }, events)

/-- C8. For every restraint/operate pair `(Ir, Id)`, `testPoint`
computes `Is1 = Ir + Id/2` and `Is2 = -(Ir - Id/2)`, invokes the
side-1 and side-2 setters with exactly those values and only then
monitors the trip flag (the action trace is setter-1, setter-2,
monitor); at `(Ir, Id) = (200, 50)` this gives `Is1 = 225` and
`Is2 = -175`. -/
theorem differential_side_currents (Ir Id expectedTime : ℚ) (label : String)
    (timeTolerance : ℚ) (tripped : Bool) (tripTime : ℚ) :
    ((testPoint ⟨Ir, Id, expectedTime, label⟩ timeTolerance tripped tripTime).1.Is1
        = Ir + Id / 2 ∧
     (testPoint ⟨Ir, Id, expectedTime, label⟩ timeTolerance tripped tripTime).1.Is2
        = -(Ir - Id / 2)) ∧
    (testPoint ⟨Ir, Id, expectedTime, label⟩ timeTolerance tripped tripTime).2
      = [.side1Set (Ir + Id / 2), .side2Set (-(Ir - Id / 2)), .monitorTrip] ∧
    calculateSideCurrents 200 50 = (225, -175) := by
  refine ⟨⟨rfl, rfl⟩, rfl, ?_⟩
  simp only [calculateSideCurrents, Prod.mk.injEq]
  norm_num

end VTS




